import Mathlib

/-!
Verification of the I²C observer applet's host-side protocol decoder
(`software/glasgow/applet/interface/i2c_observer/__init__.py`).

The Python module consumes a flat byte stream of observed bus events,
reassembles it into transactions (`read_xfer`), decodes a transaction's raw
bytes into semantic events (`iter_xfer`), filters transactions by target
address (`is_filtered`) and renders them as trace lines (`print_xfer`,
driven by `interact`).

Shallow embedding conventions:
* Python byte values are `Nat` (the producer delivers values in 0..255; the
  bit masks used by the code are total on `Nat`).
* The asynchronous byte source of `read_xfer` is modelled as the finite list
  of bytes that arrive before the stream stalls; reading past its end is the
  `asyncio.TimeoutError` path (every read after the first one carries the
  0.3 s deadline).
* Python expressions that raise on `None` (such as `None & 0x1` or
  formatting `None` with `:02x`) are modelled by `Option`: a `none` result of
  `print_xfer` / `is_filtered` is an uncaught exception.
-/

namespace I2CObserver

-- Event tags, high nibble of an event byte (`class Event(enum.IntEnum)`).
namespace Event

def START : Nat := 0x10

def STOP : Nat := 0x20

def BYTE : Nat := 0x30

def ACK : Nat := 0x40

end Event

/-- `decode_event`: split a raw byte into `(tag, immediate nibble)`. -/
def decode_event (value : Nat) : Nat × Nat :=
  (value &&& 0xF0, value &&& 0x0F)

/-- `is_ack`: bit 0 clear means acknowledged. -/
def is_ack (value : Nat) : Bool :=
  value &&& 0x1 != 0x1

/-- `is_read`: bit 0 of the address byte is the R/W flag. -/
def is_read (address : Nat) : Bool :=
  address &&& 0x1 == 0x1

/-- `to_7bit_address`: drop the R/W bit. -/
def to_7bit_address (address : Nat) : Nat :=
  address >>> 0x1

/--
`iter_xfer`, with the generator's local `is_address` flag made an explicit
argument.  Each yielded triple is `(event tag, data, is_address)`:
* a `START` byte yields `(START, none, false)` and arms the flag;
* a `BYTE` opcode byte consumes the next raw byte as its value
  (`next(xfer_iter, None)` yields `none` when the bytes run out) and clears
  the flag;
* an `ACK` byte yields its low nibble as data, flag untouched;
* a `STOP` byte yields `(STOP, none, false)`, flag untouched;
* any other tag is skipped (the Python `match` has no case for it).
-/
def iter_xfer_from : List Nat → Bool → List (Nat × Option Nat × Bool)
  | [], _ => []
  | e :: rest, is_address =>
    if (decode_event e).1 = Event.START then
      (Event.START, none, false) :: iter_xfer_from rest true
    else if (decode_event e).1 = Event.BYTE then
      match rest with
      | [] => (Event.BYTE, none, is_address) :: iter_xfer_from [] false
      | d :: rest2 => (Event.BYTE, some d, is_address) :: iter_xfer_from rest2 false
    else if (decode_event e).1 = Event.ACK then
      (Event.ACK, some (decode_event e).2, false) :: iter_xfer_from rest is_address
    else if (decode_event e).1 = Event.STOP then
      (Event.STOP, none, false) :: iter_xfer_from rest is_address
    else
      iter_xfer_from rest is_address

/-- `iter_xfer` as called: the flag starts out `False`. -/
def iter_xfer (xfer : List Nat) : List (Nat × Option Nat × Bool) :=
  iter_xfer_from xfer false

/-- A decoded semantic event, as the spec's data model describes it. -/
inductive DecodedEvent
  | start
  | stop
  | dataByte (value : Option Nat) (is_address : Bool)
  | ack (acknowledged : Bool)
deriving DecidableEq

/--
Package one `iter_xfer` triple as a semantic event; the acknowledged bit is
computed from the yielded data exactly as `print_xfer` does (`is_ack(data)`).
-/
def to_semantic (t : Nat × Option Nat × Bool) : DecodedEvent :=
  if t.1 = Event.START then .start
  else if t.1 = Event.BYTE then .dataByte t.2.1 t.2.2
  else if t.1 = Event.ACK then .ack (is_ack (t.2.1.getD 0))
  else .stop

/-- Decode a transaction's raw bytes into semantic events. -/
def decode_events (xfer : List Nat) : List DecodedEvent :=
  (iter_xfer xfer).map to_semantic

/-- Result of `read_xfer`: a completed transaction (returned on `STOP`), or
the `XferTimeoutError` path carrying the partial byte sequence accumulated
so far. -/
inductive XferResult
  | ok (xfer : List Nat)
  | timedOut (xfer : List Nat)
deriving DecidableEq

/--
The `while True` loop of `read_xfer`.  The byte source is the list of bytes
that arrive before the stream stalls: every read inside the loop (after the
very first byte of the call) carries the 0.3 s deadline, so running out of
bytes is the `asyncio.TimeoutError` path, turned into
`XferTimeoutError(events)`.
* tag `START` / `ACK`: append the byte and continue;
* tag `BYTE`: append the opcode byte, then read the data byte under the
  deadline (stalling here times out with the opcode byte already appended);
* tag `STOP`: append and return the accumulated transaction;
* any other tag: warn and drop the byte, continue.
-/
def read_xfer_loop : List Nat → List Nat → XferResult
  | [], events => .timedOut events
  | value :: rest, events =>
    if (value &&& 0xF0) = Event.START then
      read_xfer_loop rest (events ++ [value])
    else if (value &&& 0xF0) = Event.BYTE then
      match rest with
      | [] => .timedOut (events ++ [value])
      | d :: rest2 => read_xfer_loop rest2 (events ++ [value, d])
    else if (value &&& 0xF0) = Event.ACK then
      read_xfer_loop rest (events ++ [value])
    else if (value &&& 0xF0) = Event.STOP then
      .ok (events ++ [value])
    else
      read_xfer_loop rest events

/--
`read_xfer` as called: the accumulator starts empty, and the very first
`read_byte` has no deadline (`timeout = None`), so a stream that stalls
before delivering any byte blocks forever rather than timing out: `none`.
-/
def read_xfer (stream : List Nat) : Option XferResult :=
  match stream with
  | [] => none
  | s => some (read_xfer_loop s [])

/-- The byte sequence carried by either outcome of `read_xfer`. -/
def xfer_bytes : XferResult → List Nat
  | .ok xs => xs
  | .timedOut xs => xs

/--
A byte stream made of complete, non-terminating event tokens (no `STOP`
byte in event position, every `BYTE` opcode followed by its data byte),
paired with the subsequence of bytes the reader keeps: unknown-tagged bytes
are dropped, all other bytes are appended.
-/
inductive NonTermTokens : List Nat → List Nat → Prop
  | nil : NonTermTokens [] []
  | start {b : Nat} {s k : List Nat} :
      b &&& 0xF0 = Event.START → NonTermTokens s k → NonTermTokens (b :: s) (b :: k)
  | ack {b : Nat} {s k : List Nat} :
      b &&& 0xF0 = Event.ACK → NonTermTokens s k → NonTermTokens (b :: s) (b :: k)
  | data {b d : Nat} {s k : List Nat} :
      b &&& 0xF0 = Event.BYTE → NonTermTokens s k →
      NonTermTokens (b :: d :: s) (b :: d :: k)
  | unknown {b : Nat} {s k : List Nat} :
      b &&& 0xF0 ≠ Event.START → b &&& 0xF0 ≠ Event.BYTE →
      b &&& 0xF0 ≠ Event.ACK → b &&& 0xF0 ≠ Event.STOP →
      NonTermTokens s k → NonTermTokens (b :: s) k

/--
Byte sequences the decoder consumes at token granularity: every `BYTE`
opcode byte is immediately followed by its data byte, so processing never
ends or resumes in the middle of a two-byte `DataByte` token.
-/
inductive TokenAligned : List Nat → Prop
  | nil : TokenAligned []
  | single {b : Nat} {s : List Nat} :
      (decode_event b).1 ≠ Event.BYTE → TokenAligned s → TokenAligned (b :: s)
  | data {b d : Nat} {s : List Nat} :
      (decode_event b).1 = Event.BYTE → TokenAligned s → TokenAligned (b :: d :: s)

/--
The decoder's address-expectation flag after it has emitted the given
triples, starting from flag `b`: a `START` triple arms it, a `BYTE` triple
clears it, `ACK` and `STOP` leave it unchanged — exactly the flag updates
of `iter_xfer`'s loop body.
-/
def flag_after (b : Bool) : List (Nat × Option Nat × Bool) → Bool
  | [] => b
  | t :: rest =>
    flag_after
      (if t.1 = Event.START then true else if t.1 = Event.BYTE then false else b) rest

/--
`iter_xfer` instrumented with the warnings it logs: the second component
collects the bytes for which the generator calls `logger.warning`.  The
Python `match` in `iter_xfer` has no case for unknown tags — the loop body
does nothing for them, logging included — so no branch contributes a
warning and the collected list is always empty.
-/
def iter_xfer_from_warned : List Nat → Bool → List (Nat × Option Nat × Bool) × List Nat
  | [], _ => ([], [])
  | e :: rest, is_address =>
    if (decode_event e).1 = Event.START then
      let r := iter_xfer_from_warned rest true
      ((Event.START, none, false) :: r.1, r.2)
    else if (decode_event e).1 = Event.BYTE then
      match rest with
      | [] =>
        let r := iter_xfer_from_warned [] false
        ((Event.BYTE, none, is_address) :: r.1, r.2)
      | d :: rest2 =>
        let r := iter_xfer_from_warned rest2 false
        ((Event.BYTE, some d, is_address) :: r.1, r.2)
    else if (decode_event e).1 = Event.ACK then
      let r := iter_xfer_from_warned rest is_address
      ((Event.ACK, some (decode_event e).2, false) :: r.1, r.2)
    else if (decode_event e).1 = Event.STOP then
      let r := iter_xfer_from_warned rest is_address
      ((Event.STOP, none, false) :: r.1, r.2)
    else
      iter_xfer_from_warned rest is_address

/--
`is_filtered`, with the `args.trace_i2c` allow-list as explicit argument.
`xfer[0]` raises `IndexError` on an empty sequence: modelled as `none`.
Otherwise the function always returns a boolean: `False` when the first
byte is not `START`-tagged or the transaction is shorter than 3 bytes
(warnings logged, never filtered), `False` when the allow-list is empty,
and otherwise whether the 7-bit address from the third raw byte is absent
from the allow-list.
-/
def is_filtered (xfer : List Nat) (trace_i2c : List Nat) : Option Bool :=
  match xfer with
  | [] => none
  | e0 :: _ =>
    if (decode_event e0).1 ≠ Event.START then some false
    else if xfer.length < 3 then some false
    else if trace_i2c.length > 0 then
      some (!(trace_i2c.contains (to_7bit_address (xfer.getD 2 0))))
    else
      some false

-- ANSI color wrappers from `cli_colors.py` (`CliColor.Disabled = False`,
-- non-Windows): wrap the text in the color escape and `ENDC`.
def ENDC : String := "\x1b[0m"

def cli_green (s : String) : String := "\x1b[92m" ++ s ++ ENDC

def cli_yellow (s : String) : String := "\x1b[93m" ++ s ++ ENDC

def cli_red (s : String) : String := "\x1b[91m" ++ s ++ ENDC

def cli_blue (s : String) : String := "\x1b[94m" ++ s ++ ENDC

/-- Python `f"{v:02x}"`: lowercase hex, zero-padded on the left to width 2. -/
def hex02 (v : Nat) : String :=
  let s := String.mk (Nat.toDigits 16 v)
  String.mk (List.replicate (2 - s.length) '0') ++ s

/-- Python `f"{v:04d}"`: decimal, zero-padded on the left to width 4. -/
def dec04 (v : Nat) : String :=
  let s := String.mk (Nat.toDigits 10 v)
  String.mk (List.replicate (4 - s.length) '0') ++ s

/--
`print_xfer` over the decoded triples of `iter_xfer`, accumulating the text
its `print` calls emit and threading the counter.  A `none` result is an
uncaught `TypeError`: Python raises where a `BYTE` event carries no data
byte, in `is_read(None)` (`None & 0x1`) for an address byte or when
formatting `None` with `:02x` for a plain data byte.  Tuples matching no
case of the Python `match` (for example an `ACK` with `is_address` true,
which `iter_xfer` never yields) print nothing.  The `STOP` arm is the only
`print` without `end=""`, so it appends the newline.
-/
def print_xfer : List (Nat × Option Nat × Bool) → Nat → Option (String × Nat)
  | [], counter => some ("", counter)
  | (event, data, is_address) :: rest, counter =>
    if event = Event.START ∧ is_address = false then
      (print_xfer rest (counter + 1)).map fun sc =>
        (dec04 (counter + 1) ++ " " ++ cli_blue ("START") ++ sc.1, sc.2)
    else if event = Event.BYTE ∧ is_address = true then
      match data with
      | none => none
      | some v =>
        (print_xfer rest counter).map fun sc =>
          (" " ++ (if is_read v then "R" else "W") ++ " " ++
            cli_yellow (hex02 (to_7bit_address v)) ++ sc.1, sc.2)
    else if event = Event.BYTE ∧ is_address = false then
      match data with
      | none => none
      | some v =>
        (print_xfer rest counter).map fun sc => (" " ++ hex02 v ++ sc.1, sc.2)
    else if event = Event.ACK ∧ is_address = false then
      match data with
      | none => none
      | some v =>
        (print_xfer rest counter).map fun sc =>
          (" " ++ (if is_ack v then cli_green ("A") else cli_red ("N")) ++ sc.1, sc.2)
    else if event = Event.STOP ∧ is_address = false then
      (print_xfer rest counter).map fun sc => (cli_blue (" STOP") ++ "\n" ++ sc.1, sc.2)
    else
      print_xfer rest counter

/--
One iteration of `interact`'s `while True` loop, given the outcome of one
`read_xfer` call; returns the counter the next iteration starts with, or
`none` when the iteration raises something other than `XferTimeoutError`
(which would crash the loop).  On a completed transaction the code runs
`counter = self.print_xfer(xfer, counter)`, so the updated counter is kept;
on `XferTimeoutError` it logs a warning and runs `self.print_xfer(e.xfer,
counter)` without assigning the result, so the loop continues with the old
counter value.
-/
def interact_step (trace_i2c : List Nat) (counter : Nat) : XferResult → Option Nat
  | .ok xfer =>
    match is_filtered xfer trace_i2c with
    | none => none
    | some true => some counter
    | some false => (print_xfer (iter_xfer xfer) counter).map fun sc => sc.2
  | .timedOut xfer =>
    (print_xfer (iter_xfer xfer) counter).map fun _ => counter

/--
Claim C1: decoding the wire bytes `[0x10, 0x30, 0xA3, 0x40, 0x30, 0x55,
0x41, 0x20]` yields exactly `[Start, DataByte(0xA3, is_address=true),
Ack(acknowledged=true), DataByte(0x55, is_address=false),
Ack(acknowledged=false), Stop]`.
-/
theorem decode_roundtrip_example :
    decode_events [0x10, 0x30, 0xA3, 0x40, 0x30, 0x55, 0x41, 0x20] =
      [.start, .dataByte (some 0xA3) true, .ack true,
       .dataByte (some 0x55) false, .ack false, .stop] := by
  decide

/-! Step lemmas unfolding one iteration of `read_xfer_loop`. -/

theorem read_xfer_loop_start {v : Nat} (h : v &&& 0xF0 = Event.START)
    (rest events : List Nat) :
    read_xfer_loop (v :: rest) events = read_xfer_loop rest (events ++ [v]) := by
  rw [read_xfer_loop.eq_def]
  simp [h]

theorem read_xfer_loop_byte_stall {v : Nat} (h : v &&& 0xF0 = Event.BYTE)
    (events : List Nat) :
    read_xfer_loop [v] events = .timedOut (events ++ [v]) := by
  rw [read_xfer_loop, h]
  norm_num [Event.START, Event.BYTE]

theorem read_xfer_loop_byte_pair {v : Nat} (h : v &&& 0xF0 = Event.BYTE)
    (d : Nat) (rest2 events : List Nat) :
    read_xfer_loop (v :: d :: rest2) events =
      read_xfer_loop rest2 (events ++ [v, d]) := by
  rw [read_xfer_loop, h]
  norm_num [Event.START, Event.BYTE]

theorem read_xfer_loop_ack {v : Nat} (h : v &&& 0xF0 = Event.ACK)
    (rest events : List Nat) :
    read_xfer_loop (v :: rest) events = read_xfer_loop rest (events ++ [v]) := by
  rw [read_xfer_loop.eq_def]
  simp [h, Event.START, Event.BYTE, Event.ACK]

theorem read_xfer_loop_stop {v : Nat} (h : v &&& 0xF0 = Event.STOP)
    (rest events : List Nat) :
    read_xfer_loop (v :: rest) events = .ok (events ++ [v]) := by
  rw [read_xfer_loop.eq_def]
  simp [h, Event.START, Event.BYTE, Event.ACK, Event.STOP]

theorem read_xfer_loop_unknown {v : Nat} (h1 : v &&& 0xF0 ≠ Event.START)
    (h2 : v &&& 0xF0 ≠ Event.BYTE) (h3 : v &&& 0xF0 ≠ Event.ACK)
    (h4 : v &&& 0xF0 ≠ Event.STOP) (rest events : List Nat) :
    read_xfer_loop (v :: rest) events = read_xfer_loop rest events := by
  rw [read_xfer_loop.eq_def]
  simp only [if_neg h1, if_neg h2, if_neg h3, if_neg h4]

/-- Bytes handed to the loop as accumulator are never dropped: every outcome
carries them as a prefix. -/
theorem read_xfer_loop_extends_acc (stream acc : List Nat) :
    ∃ t, xfer_bytes (read_xfer_loop stream acc) = acc ++ t := by
  induction stream, acc using read_xfer_loop.induct with
  | case1 events => exact ⟨[], by simp [read_xfer_loop, xfer_bytes]⟩
  | case2 value rest events h ih =>
    obtain ⟨t, ht⟩ := ih
    exact ⟨value :: t, by simp [read_xfer_loop_start h, ht]⟩
  | case3 value events h1 h2 =>
    exact ⟨[value], by simp [read_xfer_loop_byte_stall h2, xfer_bytes]⟩
  | case4 value events h1 h2 d rest2 ih =>
    obtain ⟨t, ht⟩ := ih
    exact ⟨value :: d :: t, by simp [read_xfer_loop_byte_pair h2, ht]⟩
  | case5 value rest events h1 h2 h3 ih =>
    obtain ⟨t, ht⟩ := ih
    exact ⟨value :: t, by simp [read_xfer_loop_ack h3, ht]⟩
  | case6 value rest events h1 h2 h3 h4 =>
    exact ⟨[value], by simp [read_xfer_loop_stop h4, xfer_bytes]⟩
  | case7 value rest events h1 h2 h3 h4 ih =>
    obtain ⟨t, ht⟩ := ih
    exact ⟨t, by simp [read_xfer_loop_unknown h1 h2 h3 h4, ht]⟩

/-- The loop returns a completed transaction only from its `STOP` branch, so
the result is non-empty and its last byte carries the `STOP` tag. -/
theorem read_xfer_loop_ok_last (stream acc : List Nat) :
    ∀ xs, read_xfer_loop stream acc = .ok xs →
      xs ≠ [] ∧ (xs.getLast?.getD 0) &&& 0xF0 = Event.STOP := by
  induction stream, acc using read_xfer_loop.induct with
  | case1 events => intro xs h; simp [read_xfer_loop] at h
  | case2 value rest events h ih =>
    intro xs hx
    exact ih xs (by rwa [read_xfer_loop_start h] at hx)
  | case3 value events h1 h2 =>
    intro xs hx
    rw [read_xfer_loop_byte_stall h2] at hx
    exact absurd hx (by simp)
  | case4 value events h1 h2 d rest2 ih =>
    intro xs hx
    exact ih xs (by rwa [read_xfer_loop_byte_pair h2] at hx)
  | case5 value rest events h1 h2 h3 ih =>
    intro xs hx
    exact ih xs (by rwa [read_xfer_loop_ack h3] at hx)
  | case6 value rest events h1 h2 h3 h4 =>
    intro xs hx
    rw [read_xfer_loop_stop h4] at hx
    obtain rfl : events ++ [value] = xs := by simpa using hx
    refine ⟨by simp, ?_⟩
    simpa [List.getLast?_concat] using h4
  | case7 value rest events h1 h2 h3 h4 ih =>
    intro xs hx
    exact ih xs (by rwa [read_xfer_loop_unknown h1 h2 h3 h4] at hx)

/--
Claim C10: every transaction returned on the success path of `read_xfer` is
a non-empty byte sequence whose last byte carries the `STOP` tag (the loop
returns exactly upon appending the `STOP` byte it just read); in particular
downstream code indexing the first byte (as `is_filtered` does) never sees
an empty sequence.
-/
theorem read_xfer_ok_ends_with_stop (stream xs : List Nat)
    (h : read_xfer stream = some (.ok xs)) :
    xs ≠ [] ∧ (xs.getLast?.getD 0) &&& 0xF0 = Event.STOP := by
  cases stream with
  | nil => simp [read_xfer] at h
  | cons v rest =>
    exact read_xfer_loop_ok_last (v :: rest) [] xs (by simpa [read_xfer] using h)

/-- Witness for C10 at the concrete stream `[0x10, 0x20]`. -/
theorem read_xfer_ok_ends_with_stop_witness :
    ([0x10, 0x20] : List Nat) ≠ [] ∧
      (([0x10, 0x20] : List Nat).getLast?.getD 0) &&& 0xF0 = Event.STOP :=
  read_xfer_ok_ends_with_stop [0x10, 0x20] [0x10, 0x20] (by decide)

theorem read_xfer_loop_stall_aux {s k : List Nat} (hs : NonTermTokens s k) :
    ∀ (events : List Nat) (op : Nat), op &&& 0xF0 = Event.BYTE →
      read_xfer_loop (s ++ [op]) events = .timedOut (events ++ k ++ [op]) := by
  induction hs with
  | nil =>
    intro events op hop
    simpa using read_xfer_loop_byte_stall hop events
  | @start b s' k' hb _ ih =>
    intro events op hop
    rw [List.cons_append, read_xfer_loop_start hb, ih (events ++ [b]) op hop]
    simp
  | @ack b s' k' hb _ ih =>
    intro events op hop
    rw [List.cons_append, read_xfer_loop_ack hb, ih (events ++ [b]) op hop]
    simp
  | @data b d s' k' hb _ ih =>
    intro events op hop
    rw [List.cons_append, List.cons_append, read_xfer_loop_byte_pair hb,
      ih (events ++ [b, d]) op hop]
    simp
  | @unknown b s' k' h1 h2 h3 h4 _ ih =>
    intro events op hop
    rw [List.cons_append, read_xfer_loop_unknown h1 h2 h3 h4, ih events op hop]

/--
Claim C3: if, after any sequence of complete non-terminating tokens, a
`BYTE` opcode byte arrives but its data byte does not before the stream
stalls, `read_xfer` raises `XferTimeoutError` carrying exactly the bytes
accumulated before the stall: the kept token bytes plus the already-appended
opcode byte, without the missing data byte.
-/
theorem read_xfer_stall_on_data_byte (s k : List Nat) (op : Nat)
    (hs : NonTermTokens s k) (hop : op &&& 0xF0 = Event.BYTE) :
    read_xfer (s ++ [op]) = some (.timedOut (k ++ [op])) := by
  have hloop := read_xfer_loop_stall_aux hs [] op hop
  cases s with
  | nil =>
    cases hs
    simpa [read_xfer] using hloop
  | cons a s' =>
    simpa [read_xfer] using hloop

/-- Witness for C3: stream `[0x10, 0x30]` (a `START`, then a dangling `BYTE`
opcode) times out carrying exactly those two bytes. -/
theorem read_xfer_stall_on_data_byte_witness :
    read_xfer [0x10, 0x30] = some (.timedOut [0x10, 0x30]) :=
  read_xfer_stall_on_data_byte [0x10] [0x10] 0x30
    (NonTermTokens.start (by decide) NonTermTokens.nil) (by decide)

/--
Claim C7 counterexample: the stream `[0x40, 0x20]` (an `ACK` byte arriving
before any `START`, then a `STOP`) makes `read_xfer` return the completed
transaction `[0x40, 0x20]`, whose first byte is `ACK`-tagged, not
`START`-tagged: recognized non-`START` bytes arriving before any `START`
are appended, refuting the claim that every returned transaction begins
with a `START`-tagged byte.
-/
theorem read_xfer_head_not_start_cex :
    read_xfer [0x40, 0x20] = some (.ok [0x40, 0x20]) ∧
      ¬ ((0x40 : Nat) &&& 0xF0 = Event.START) := by
  decide

/-- Any non-empty outcome of the loop (started with an empty accumulator)
begins with a byte whose tag is one of the four recognized event tags. -/
theorem read_xfer_loop_head_tag (stream : List Nat) :
    ∀ xs, xfer_bytes (read_xfer_loop stream []) = xs → xs ≠ [] →
      (xs.head?.getD 0) &&& 0xF0 ∈
        ([Event.START, Event.STOP, Event.BYTE, Event.ACK] : List Nat) := by
  induction stream with
  | nil =>
    intro xs h hne
    simp [read_xfer_loop, xfer_bytes] at h
    exact absurd h hne
  | cons v rest ih =>
    intro xs h hne
    by_cases h1 : v &&& 0xF0 = Event.START
    · rw [read_xfer_loop_start h1, List.nil_append] at h
      obtain ⟨t, ht⟩ := read_xfer_loop_extends_acc rest [v]
      rw [ht] at h
      rw [← h]
      simpa using Or.inl h1
    · by_cases h2 : v &&& 0xF0 = Event.BYTE
      · cases rest with
        | nil =>
          rw [read_xfer_loop_byte_stall h2, List.nil_append] at h
          simp only [xfer_bytes] at h
          rw [← h]
          simpa using Or.inr (Or.inr (Or.inl h2))
        | cons d rest2 =>
          rw [read_xfer_loop_byte_pair h2, List.nil_append] at h
          obtain ⟨t, ht⟩ := read_xfer_loop_extends_acc rest2 [v, d]
          rw [ht] at h
          rw [← h]
          simpa using Or.inr (Or.inr (Or.inl h2))
      · by_cases h3 : v &&& 0xF0 = Event.ACK
        · rw [read_xfer_loop_ack h3, List.nil_append] at h
          obtain ⟨t, ht⟩ := read_xfer_loop_extends_acc rest [v]
          rw [ht] at h
          rw [← h]
          simpa using Or.inr (Or.inr (Or.inr h3))
        · by_cases h4 : v &&& 0xF0 = Event.STOP
          · rw [read_xfer_loop_stop h4, List.nil_append] at h
            simp only [xfer_bytes] at h
            rw [← h]
            simpa using Or.inr (Or.inl h4)
          · rw [read_xfer_loop_unknown h1 h2 h3 h4] at h
            exact ih xs h hne

/--
Claim C7 (amended): every transaction surfaced by `read_xfer` — returned
complete or attached to a timeout — begins, when non-empty, with a byte
carrying one of the four recognized event tags (unknown-tagged bytes before
it are dropped), but not necessarily the `START` tag: any recognized event
byte arriving before the first `START` is accumulated too.
-/
theorem read_xfer_head_tag_recognized (stream xs : List Nat) (r : XferResult)
    (h : read_xfer stream = some r) (hb : xfer_bytes r = xs) (hne : xs ≠ []) :
    (xs.head?.getD 0) &&& 0xF0 ∈
      ([Event.START, Event.STOP, Event.BYTE, Event.ACK] : List Nat) := by
  cases stream with
  | nil => simp [read_xfer] at h
  | cons v rest =>
    have hr : r = read_xfer_loop (v :: rest) [] := by
      have := h
      simp [read_xfer] at this
      exact this.symm
    exact read_xfer_loop_head_tag (v :: rest) xs (by rw [← hr]; exact hb) hne

/-- Witness for C7 (amended) at the stream `[0x40, 0x20]`. -/
theorem read_xfer_head_tag_recognized_witness :
    (([0x40, 0x20] : List Nat).head?.getD 0) &&& 0xF0 ∈
      ([Event.START, Event.STOP, Event.BYTE, Event.ACK] : List Nat) :=
  read_xfer_head_tag_recognized [0x40, 0x20] [0x40, 0x20] (.ok [0x40, 0x20])
    (by decide) (by decide) (by decide)

/--
Claim C5 counterexample: on the empty byte sequence, `is_filtered` does not
return `False` — `xfer[0]` raises `IndexError` before the allow-list is
even consulted, refuting "returns false for every input, including
malformed ones, without raising".
-/
theorem is_filtered_empty_xfer_cex : is_filtered [] [] = none := by
  decide

/--
Claim C5 (amended): with an empty allow-list, `is_filtered` returns
`False` for every non-empty input transaction, including malformed ones
(first byte not `START`-tagged, or fewer than 3 bytes), without raising;
on the empty byte sequence it raises `IndexError` instead of returning.
-/
theorem is_filtered_empty_allow_list (xfer : List Nat) (hne : xfer ≠ []) :
    is_filtered xfer [] = some false := by
  cases xfer with
  | nil => exact absurd rfl hne
  | cons e0 rest =>
    rw [is_filtered]
    split_ifs <;> simp_all

/-- Witness for C5 (amended) at the malformed input `[0x05]` (single byte,
not `START`-tagged). -/
theorem is_filtered_empty_allow_list_witness :
    is_filtered [0x05] [] = some false :=
  is_filtered_empty_allow_list [0x05] (by decide)

/--
Claim C6: for a transaction whose first byte is `START`-tagged and which
has at least 3 raw bytes, and a non-empty allow-list, `is_filtered`
returns `True` iff the 7-bit address obtained from the third raw byte
(shifted right by one) is not in the allow-list.
-/
theorem is_filtered_allow_list_iff (xfer allow : List Nat)
    (h0 : (xfer.getD 0 0) &&& 0xF0 = Event.START) (h3 : 3 ≤ xfer.length)
    (hne : allow ≠ []) :
    is_filtered xfer allow = some true ↔
      to_7bit_address (xfer.getD 2 0) ∉ allow := by
  cases xfer with
  | nil => simp at h3
  | cons e0 rest =>
    have h0' : (decode_event e0).1 = Event.START := by
      simpa [decode_event, List.getD] using h0
    rw [is_filtered, if_neg (not_not_intro h0'),
      if_neg (by simp at h3 ⊢; omega), if_pos (List.length_pos.mpr hne)]
    simp

/-- Witness for C6: with allow-list `{0x50}`, address byte `0xA2` (7-bit
address `0x51`) is filtered and address byte `0xA0` (7-bit address `0x50`)
is not. -/
theorem is_filtered_allow_list_iff_witness :
    is_filtered [0x10, 0x30, 0xA2, 0x20] [0x50] = some true ∧
      is_filtered [0x10, 0x30, 0xA0, 0x20] [0x50] = some false :=
  ⟨(is_filtered_allow_list_iff [0x10, 0x30, 0xA2, 0x20] [0x50]
      (by decide) (by decide) (by decide)).mpr (by decide),
    by decide⟩

/--
Claim C4 (code bug): the stream `[0x10, 0x30]` stalls after a `BYTE`
opcode, so `read_xfer` surfaces the partial transaction `[0x10, 0x30]`;
rendering it does NOT terminate normally: `iter_xfer` yields the `BYTE`
event with data `None`, and `print_xfer` evaluates `is_read(None)`
(`None & 0x1`), raising `TypeError` — the partial transaction is dropped
and the exception escapes `interact`'s loop, contrary to the claim (and to
the documented intent of displaying partial traces on `StallTimeout`).
-/
theorem print_xfer_raises_on_stalled_xfer :
    read_xfer [0x10, 0x30] = some (.timedOut [0x10, 0x30]) ∧
      print_xfer (iter_xfer [0x10, 0x30]) 0 = none := by
  decide

/--
Claim C8 (code bug): rendering the timed-out partial `[0x10]` prints the
counter value 1 and returns counter 1, but `interact`'s `except` branch
discards the returned counter, so the loop continues with counter 0 and
the next completed transaction `[0x10, 0x20]` prints the value 1 again —
the displayed counter value repeats, contrary to the claim that the
advanced value is carried over and no value is printed twice.
-/
theorem interact_discards_counter_after_timeout :
    interact_step [] 0 (.timedOut [0x10]) = some 0 ∧
      print_xfer (iter_xfer [0x10]) 0 = some ("0001 " ++ cli_blue ("START"), 1) ∧
      print_xfer (iter_xfer [0x10, 0x20]) 0 =
        some ("0001 " ++ cli_blue ("START") ++ cli_blue (" STOP") ++ "\n", 1) := by
  decide

/-! Step lemmas unfolding one iteration of `iter_xfer_from`. -/

theorem iter_xfer_from_start {e : Nat} (h : (decode_event e).1 = Event.START)
    (rest : List Nat) (b : Bool) :
    iter_xfer_from (e :: rest) b =
      (Event.START, none, false) :: iter_xfer_from rest true := by
  rw [iter_xfer_from.eq_def]
  simp [h]

theorem iter_xfer_from_byte_dangling {e : Nat} (h : (decode_event e).1 = Event.BYTE)
    (b : Bool) :
    iter_xfer_from [e] b = [(Event.BYTE, none, b)] := by
  rw [iter_xfer_from.eq_def]
  simp [h, Event.START, Event.BYTE, iter_xfer_from]

theorem iter_xfer_from_byte_pair {e : Nat} (h : (decode_event e).1 = Event.BYTE)
    (d : Nat) (rest2 : List Nat) (b : Bool) :
    iter_xfer_from (e :: d :: rest2) b =
      (Event.BYTE, some d, b) :: iter_xfer_from rest2 false := by
  rw [iter_xfer_from.eq_def]
  simp [h, Event.START, Event.BYTE]

theorem iter_xfer_from_ack {e : Nat} (h : (decode_event e).1 = Event.ACK)
    (rest : List Nat) (b : Bool) :
    iter_xfer_from (e :: rest) b =
      (Event.ACK, some (decode_event e).2, false) :: iter_xfer_from rest b := by
  rw [iter_xfer_from.eq_def]
  simp [h, Event.START, Event.BYTE, Event.ACK]

theorem iter_xfer_from_stop {e : Nat} (h : (decode_event e).1 = Event.STOP)
    (rest : List Nat) (b : Bool) :
    iter_xfer_from (e :: rest) b =
      (Event.STOP, none, false) :: iter_xfer_from rest b := by
  rw [iter_xfer_from.eq_def]
  simp [h, Event.START, Event.BYTE, Event.ACK, Event.STOP]

theorem iter_xfer_from_unknown {e : Nat} (h1 : (decode_event e).1 ≠ Event.START)
    (h2 : (decode_event e).1 ≠ Event.BYTE) (h3 : (decode_event e).1 ≠ Event.ACK)
    (h4 : (decode_event e).1 ≠ Event.STOP) (rest : List Nat) (b : Bool) :
    iter_xfer_from (e :: rest) b = iter_xfer_from rest b := by
  rw [iter_xfer_from.eq_def]
  simp only [if_neg h1, if_neg h2, if_neg h3, if_neg h4]

/--
Claim C9 counterexample: the transaction `[0x10, 0x05, 0x20]` carries the
unknown-tagged byte `0x05` in event position; the decoder does skip it, but
logs NO warning while doing so (the Python `match` in `iter_xfer` has no
fallback case, so the skip is silent), refuting "skips that byte with a
warning".
-/
theorem iter_xfer_unknown_no_warning_cex :
    iter_xfer_from_warned [0x10, 0x05, 0x20] false =
      ([(Event.START, none, false), (Event.STOP, none, false)], []) := by
  decide

theorem iter_xfer_from_skip_unknown {s1 : List Nat} (ha : TokenAligned s1)
    {u : Nat} (h1 : (decode_event u).1 ≠ Event.START)
    (h2 : (decode_event u).1 ≠ Event.BYTE) (h3 : (decode_event u).1 ≠ Event.ACK)
    (h4 : (decode_event u).1 ≠ Event.STOP) :
    ∀ (s2 : List Nat) (b : Bool),
      iter_xfer_from (s1 ++ u :: s2) b = iter_xfer_from (s1 ++ s2) b := by
  induction ha with
  | nil =>
    intro s2 b
    simpa using iter_xfer_from_unknown h1 h2 h3 h4 s2 b
  | @single e s he _ ih =>
    intro s2 b
    by_cases he1 : (decode_event e).1 = Event.START
    · rw [List.cons_append, List.cons_append, iter_xfer_from_start he1,
        iter_xfer_from_start he1, ih s2 true]
    · by_cases he3 : (decode_event e).1 = Event.ACK
      · rw [List.cons_append, List.cons_append, iter_xfer_from_ack he3,
          iter_xfer_from_ack he3, ih s2 b]
      · by_cases he4 : (decode_event e).1 = Event.STOP
        · rw [List.cons_append, List.cons_append, iter_xfer_from_stop he4,
            iter_xfer_from_stop he4, ih s2 b]
        · rw [List.cons_append, List.cons_append,
            iter_xfer_from_unknown he1 he he3 he4,
            iter_xfer_from_unknown he1 he he3 he4, ih s2 b]
  | @data e d s he _ ih =>
    intro s2 b
    rw [List.cons_append, List.cons_append, List.cons_append, List.cons_append,
      iter_xfer_from_byte_pair he, iter_xfer_from_byte_pair he, ih s2 false]

/--
Claim C9 (amended): when the decoder meets a byte with an unknown tag in
event position (after any token-aligned prefix), it skips that byte
silently — no warning is logged by `iter_xfer` — and does not fail the
decode: the output is exactly the decode of the transaction with the
unknown byte absent.
-/
theorem iter_xfer_skips_unknown_byte (s1 s2 : List Nat) (u : Nat)
    (ha : TokenAligned s1)
    (h1 : (decode_event u).1 ≠ Event.START) (h2 : (decode_event u).1 ≠ Event.BYTE)
    (h3 : (decode_event u).1 ≠ Event.ACK) (h4 : (decode_event u).1 ≠ Event.STOP) :
    iter_xfer (s1 ++ u :: s2) = iter_xfer (s1 ++ s2) :=
  iter_xfer_from_skip_unknown ha h1 h2 h3 h4 s2 false

/-- Witness for C9 (amended): injecting the tag-`0x0` byte `0x05` into
`[0x10, 0x20]` leaves the decode unchanged. -/
theorem iter_xfer_skips_unknown_byte_witness :
    iter_xfer [0x10, 0x05, 0x20] = iter_xfer [0x10, 0x20] :=
  iter_xfer_skips_unknown_byte [0x10] [0x20] 0x05
    (TokenAligned.single (by decide) TokenAligned.nil)
    (by decide) (by decide) (by decide) (by decide)

/--
Claim C2 counterexample: the transaction `[0x10, 0x20]` (`START` then
`STOP`) decodes to exactly one `START` event and zero `BYTE` events with
`is_address = true` — there is no "exactly one address `DataByte` per
`Start` occurrence" here, since this `Start` is followed by no `DataByte`
at all.
-/
theorem iter_xfer_start_without_address_cex :
    (iter_xfer [0x10, 0x20]).countP (fun t => t.1 == Event.START) = 1 ∧
      (iter_xfer [0x10, 0x20]).countP (fun t => t.1 == Event.BYTE && t.2.2) = 0 := by
  decide

/-- The `is_address` value of every `BYTE` triple the decoder emits equals
the address-expectation flag accumulated over the triples emitted before
it. -/
theorem iter_xfer_from_byte_flag (xfer : List Nat) (b : Bool) :
    ∀ (pre post : List (Nat × Option Nat × Bool)) (d : Option Nat) (f : Bool),
      iter_xfer_from xfer b = pre ++ (Event.BYTE, d, f) :: post →
      f = flag_after b pre := by
  induction xfer, b using iter_xfer_from.induct with
  | case1 b =>
    intro pre post d f h
    simp [iter_xfer_from] at h
  | case2 e rest b he ih =>
    intro pre post d f h
    rw [iter_xfer_from_start he] at h
    cases pre with
    | nil =>
      simp [Event.START, Event.BYTE] at h
    | cons p pre' =>
      simp only [List.cons_append, List.cons.injEq] at h
      obtain ⟨rfl, h2⟩ := h
      simpa [flag_after] using ih pre' post d f h2
  | case3 e b he1 he2 ih =>
    intro pre post d f h
    rw [iter_xfer_from_byte_dangling he2] at h
    cases pre with
    | nil =>
      simp at h
      obtain ⟨⟨_, hf⟩, _⟩ := h
      simp [flag_after, hf]
    | cons p pre' =>
      simp at h
  | case4 e b he1 he2 d0 rest2 ih =>
    intro pre post d f h
    rw [iter_xfer_from_byte_pair he2] at h
    cases pre with
    | nil =>
      simp at h
      obtain ⟨⟨_, hf⟩, _⟩ := h
      simp [flag_after, hf]
    | cons p pre' =>
      simp only [List.cons_append, List.cons.injEq] at h
      obtain ⟨rfl, h2⟩ := h
      simpa [flag_after, Event.START, Event.BYTE] using ih pre' post d f h2
  | case5 e rest b he1 he2 he3 ih =>
    intro pre post d f h
    rw [iter_xfer_from_ack he3] at h
    cases pre with
    | nil =>
      simp [Event.ACK, Event.BYTE] at h
    | cons p pre' =>
      simp only [List.cons_append, List.cons.injEq] at h
      obtain ⟨rfl, h2⟩ := h
      simpa [flag_after, Event.START, Event.ACK, Event.BYTE] using ih pre' post d f h2
  | case6 e rest b he1 he2 he3 he4 ih =>
    intro pre post d f h
    rw [iter_xfer_from_stop he4] at h
    cases pre with
    | nil =>
      simp [Event.STOP, Event.BYTE] at h
    | cons p pre' =>
      simp only [List.cons_append, List.cons.injEq] at h
      obtain ⟨rfl, h2⟩ := h
      simpa [flag_after, Event.START, Event.STOP, Event.BYTE] using ih pre' post d f h2
  | case7 e rest b he1 he2 he3 he4 ih =>
    intro pre post d f h
    rw [iter_xfer_from_unknown he1 he2 he3 he4] at h
    exact ih pre post d f h

/-- Splitting a cons cell at a `START` element with no later `BYTE`
element: either the head is that element, or the split lies in the tail. -/
theorem cons_split_start_iff (t : Nat × Option Nat × Bool)
    (rest : List (Nat × Option Nat × Bool)) :
    (∃ pre1 x pre2, t :: rest = pre1 ++ x :: pre2 ∧ x.1 = Event.START ∧
        ∀ y ∈ pre2, y.1 ≠ Event.BYTE) ↔
      ((t.1 = Event.START ∧ ∀ y ∈ rest, y.1 ≠ Event.BYTE) ∨
        (∃ pre1 x pre2, rest = pre1 ++ x :: pre2 ∧ x.1 = Event.START ∧
          ∀ y ∈ pre2, y.1 ≠ Event.BYTE)) := by
  constructor
  · rintro ⟨pre1, x, pre2, heq, hx, hnb⟩
    cases pre1 with
    | nil =>
      rw [List.nil_append] at heq
      injection heq with hh ht
      subst hh
      subst ht
      exact Or.inl ⟨hx, hnb⟩
    | cons a pre1' =>
      rw [List.cons_append] at heq
      injection heq with hh ht
      exact Or.inr ⟨pre1', x, pre2, ht, hx, hnb⟩
  · rintro (⟨hx, hnb⟩ | ⟨pre1, x, pre2, heq, hx, hnb⟩)
    · exact ⟨[], t, rest, by simp, hx, hnb⟩
    · exact ⟨t :: pre1, x, pre2, by simp [heq], hx, hnb⟩

/-- The accumulated flag is true iff some already-emitted `START` triple has
no `BYTE` triple after it (or the flag started true and no `BYTE` triple
was emitted at all). -/
theorem flag_after_true_iff (pre : List (Nat × Option Nat × Bool)) :
    ∀ b, flag_after b pre = true ↔
      ((∃ pre1 x pre2, pre = pre1 ++ x :: pre2 ∧ x.1 = Event.START ∧
          ∀ y ∈ pre2, y.1 ≠ Event.BYTE) ∨
        (b = true ∧ ∀ y ∈ pre, y.1 ≠ Event.BYTE)) := by
  induction pre with
  | nil =>
    intro b
    constructor
    · intro hb
      exact Or.inr ⟨hb, by simp⟩
    · rintro (⟨p1, x, p2, hsplit, _, _⟩ | ⟨hb, _⟩)
      · have := congrArg List.length hsplit
        simp [List.length_append] at this
        omega
      · exact hb
  | cons t rest ih =>
    intro b
    rw [flag_after, ih, cons_split_start_iff]
    by_cases ht1 : t.1 = Event.START
    · rw [if_pos ht1]
      constructor
      · rintro (hA | ⟨-, hN⟩)
        · exact Or.inl (Or.inr hA)
        · exact Or.inl (Or.inl ⟨ht1, hN⟩)
      · rintro ((⟨-, hN⟩ | hA) | ⟨-, hN⟩)
        · exact Or.inr ⟨rfl, hN⟩
        · exact Or.inl hA
        · rw [List.forall_mem_cons] at hN
          exact Or.inr ⟨rfl, hN.2⟩
    · rw [if_neg ht1]
      by_cases ht2 : t.1 = Event.BYTE
      · rw [if_pos ht2]
        constructor
        · rintro (hA | ⟨hfalse, -⟩)
          · exact Or.inl (Or.inr hA)
          · exact absurd hfalse (by simp)
        · rintro ((⟨hstart, -⟩ | hA) | ⟨-, hN⟩)
          · exact absurd hstart ht1
          · exact Or.inl hA
          · rw [List.forall_mem_cons] at hN
            exact absurd ht2 hN.1
      · rw [if_neg ht2]
        constructor
        · rintro (hA | ⟨hb, hN⟩)
          · exact Or.inl (Or.inr hA)
          · exact Or.inr ⟨hb, by rw [List.forall_mem_cons]; exact ⟨ht2, hN⟩⟩
        · rintro ((⟨hstart, -⟩ | hA) | ⟨hb, hN⟩)
          · exact absurd hstart ht1
          · exact Or.inl hA
          · rw [List.forall_mem_cons] at hN
            exact Or.inr ⟨hb, hN.2⟩

/--
Claim C2 (amended): a `BYTE` event in the decoded output of `iter_xfer`
carries `is_address = true` iff it is the first `BYTE` event after some
`START` event — at most one per `START`, namely the first `DataByte`
following it, and a `START` followed by no `DataByte` marks none; every
other `BYTE` event carries `is_address = false`.
-/
theorem iter_xfer_is_address_iff (xfer : List Nat)
    (pre post : List (Nat × Option Nat × Bool)) (d : Option Nat) (f : Bool)
    (h : iter_xfer xfer = pre ++ (Event.BYTE, d, f) :: post) :
    f = true ↔ ∃ pre1 x pre2, pre = pre1 ++ x :: pre2 ∧ x.1 = Event.START ∧
      ∀ y ∈ pre2, y.1 ≠ Event.BYTE := by
  rw [iter_xfer_from_byte_flag xfer false pre post d f h, flag_after_true_iff]
  simp

/-- Witness for C2 (amended): in `[0x10, 0x30, 0xA3]` the `BYTE` event
directly after the `START` event carries `is_address = true`. -/
theorem iter_xfer_is_address_iff_witness :
    (((iter_xfer [0x10, 0x30, 0xA3]).getD 1 (0, none, false)).2.2) = true :=
  (iter_xfer_is_address_iff [0x10, 0x30, 0xA3]
      [(Event.START, none, false)] [] (some 0xA3)
      (((iter_xfer [0x10, 0x30, 0xA3]).getD 1 (0, none, false)).2.2)
      (by decide)).mpr
    ⟨[], (Event.START, none, false), [], by decide, by decide, by simp⟩

end I2CObserver
